import Mathlib

/-!
Shallow embedding of the tpi-redes file-transfer core (backend/src/tpi_redes):
the 16-byte header codec (core/protocol.py), the MITM proxy corruption step
(services/proxy.py), the TCP server receive loop (transport/tcp_server.py),
the UDP server per-address session machine (transport/udp_server.py) and the
client-side file pre-check (transport/tcp_client.py, transport/udp_client.py).

Bytes are modelled as natural numbers below 256; byte strings as `List Nat`.
Python strings that the code only ever manipulates through their UTF-8
encoding (filenames, hashes) are embedded as their UTF-8 byte lists.
-/

namespace TpiRedes

/-- Big-endian encoding of `v` into `w` bytes (the fixed-width unsigned
fields `H` and `Q` of `struct.pack("!cHQH3s", ...)`). Most significant
byte first. -/
def natToBE : Nat → Nat → List Nat
  | 0, _ => []
  | w + 1, v => natToBE w (v / 256) ++ [v % 256]

/-- Big-endian decoding of a byte list back to a natural number
(the inverse direction used by `struct.unpack`). -/
def beToNat (bs : List Nat) : Nat :=
  bs.foldl (fun acc b => acc * 256 + b) 0

/-- `Header` dataclass of core/protocol.py: op_code (single byte),
name_len, file_size, hash_len. -/
structure Header where
  op_code : Nat
  name_len : Nat
  file_size : Nat
  hash_len : Nat
deriving DecidableEq, Repr

/-- `ProtocolHandler.HEADER_SIZE = struct.calcsize("!cHQH3s") = 16`. -/
def HEADER_SIZE : Nat := 16

/-- `ProtocolHandler.pack_header` (core/protocol.py lines 38-63).
`filename.encode("utf-8")` and `file_hash.encode("utf-8")` are embedded as
the byte lists `name_bytes` and `hash_bytes`. `struct.pack("!cHQH3s", ...)`
raises `struct.error` (modelled as `none`) unless the op code is a single
byte, both length fields fit in an unsigned 16-bit field, and the file size
fits in an unsigned 64-bit field (Python ints are unbounded, hence the
explicit range conditions; negative sizes are rejected by format `Q`).
On success the result is the 16-byte big-endian record
`[1B op][2B name_len][8B file_size][2B hash_len][3B zero padding]`. -/
def pack_header (op_code : Nat) (name_bytes : List Nat) (file_size : Int)
    (hash_bytes : List Nat) : Option (List Nat) :=
  if op_code < 256 ∧ name_bytes.length ≤ 65535 ∧ 0 ≤ file_size ∧
      file_size < 2 ^ 64 ∧ hash_bytes.length ≤ 65535 then
    some (op_code ::
      (natToBE 2 name_bytes.length ++
        (natToBE 8 file_size.toNat ++
          (natToBE 2 hash_bytes.length ++ [0, 0, 0]))))
  else
    none

/-- `ProtocolHandler.unpack_header` (core/protocol.py lines 65-92).
Raises `ValueError` (modelled as `none`) when the input is not exactly
`HEADER_SIZE = 16` bytes; otherwise `struct.unpack("!cHQH3s", data)`
splits the bytes into the four fields (the 3 reserved bytes are read and
discarded). -/
def unpack_header (data : List Nat) : Option Header :=
  if data.length = HEADER_SIZE then
    some
      { op_code := data.headI
        name_len := beToNat ((data.drop 1).take 2)
        file_size := beToNat ((data.drop 3).take 8)
        hash_len := beToNat ((data.drop 11).take 2) }
  else
    none

theorem natToBE_length (w v : Nat) : (natToBE w v).length = w := by
  induction w generalizing v with
  | zero => rfl
  | succ w ih => simp [natToBE, ih]

theorem beToNat_append_singleton (xs : List Nat) (b : Nat) :
    beToNat (xs ++ [b]) = beToNat xs * 256 + b := by
  simp [beToNat, List.foldl_append]

theorem beToNat_natToBE (w v : Nat) (h : v < 256 ^ w) :
    beToNat (natToBE w v) = v := by
  induction w generalizing v with
  | zero =>
    interval_cases v
    rfl
  | succ w ih =>
    have hv : v / 256 < 256 ^ w := by
      have : v < 256 ^ w * 256 := by
        calc v < 256 ^ (w + 1) := h
        _ = 256 ^ w * 256 := by ring
      omega
    rw [natToBE, beToNat_append_singleton, ih _ hv]
    omega

theorem pack_header_eq (op : Nat) (name hash : List Nat) (fs : Int)
    (hop : op < 256) (hn : name.length ≤ 65535) (hfs0 : 0 ≤ fs)
    (hfs : fs < 2 ^ 64) (hh : hash.length ≤ 65535) :
    pack_header op name fs hash =
      some (op ::
        (natToBE 2 name.length ++
          (natToBE 8 fs.toNat ++ (natToBE 2 hash.length ++ [0, 0, 0])))) := by
  rw [pack_header, if_pos ⟨hop, hn, hfs0, hfs, hh⟩]

theorem packed_length (op : Nat) (n f h : Nat) :
    (op :: (natToBE 2 n ++ (natToBE 8 f ++ (natToBE 2 h ++ [0, 0, 0])))).length
      = HEADER_SIZE := by
  simp [List.length_append, natToBE_length, HEADER_SIZE]

theorem unpack_packed (op : Nat) (n f h : Nat)
    (hn : n < 65536) (hf : f < 2 ^ 64) (hh : h < 65536) :
    unpack_header
        (op :: (natToBE 2 n ++ (natToBE 8 f ++ (natToBE 2 h ++ [0, 0, 0]))))
      = some ⟨op, n, f, h⟩ := by
  have e1 : (op :: (natToBE 2 n ++ (natToBE 8 f ++ (natToBE 2 h ++ [0, 0, 0])))).headI
      = op := rfl
  have e2 : ((op :: (natToBE 2 n ++ (natToBE 8 f ++ (natToBE 2 h ++ [0, 0, 0])))).drop 1).take 2
      = natToBE 2 n := by
    show ((natToBE 2 n) ++ (natToBE 8 f ++ (natToBE 2 h ++ [0, 0, 0]))).take 2
        = natToBE 2 n
    exact List.take_left' (natToBE_length 2 n)
  have edrop3 : (op :: (natToBE 2 n ++ (natToBE 8 f ++ (natToBE 2 h ++ [0, 0, 0])))).drop 3
      = natToBE 8 f ++ (natToBE 2 h ++ [0, 0, 0]) := by
    show ((natToBE 2 n) ++ (natToBE 8 f ++ (natToBE 2 h ++ [0, 0, 0]))).drop 2
        = natToBE 8 f ++ (natToBE 2 h ++ [0, 0, 0])
    exact List.drop_left' (natToBE_length 2 n)
  have e3 : ((op :: (natToBE 2 n ++ (natToBE 8 f ++ (natToBE 2 h ++ [0, 0, 0])))).drop 3).take 8
      = natToBE 8 f := by
    rw [edrop3]
    exact List.take_left' (natToBE_length 8 f)
  have e4 : ((op :: (natToBE 2 n ++ (natToBE 8 f ++ (natToBE 2 h ++ [0, 0, 0])))).drop 11).take 2
      = natToBE 2 h := by
    have h11 : (op :: (natToBE 2 n ++ (natToBE 8 f ++ (natToBE 2 h ++ [0, 0, 0])))).drop 11
        = natToBE 2 h ++ [0, 0, 0] := by
      have h8 : ((op :: (natToBE 2 n ++ (natToBE 8 f ++ (natToBE 2 h ++ [0, 0, 0])))).drop 3).drop 8
          = (op :: (natToBE 2 n ++ (natToBE 8 f ++ (natToBE 2 h ++ [0, 0, 0])))).drop 11 := by
        rw [List.drop_drop]
      rw [← h8, edrop3]
      exact List.drop_left' (natToBE_length 8 f)
    rw [h11]
    exact List.take_left' (natToBE_length 2 h)
  rw [unpack_header, if_pos (packed_length op n f h)]
  rw [e1, e2, e3, e4,
    beToNat_natToBE 2 n (by omega),
    beToNat_natToBE 8 f (by exact_mod_cast hf),
    beToNat_natToBE 2 h (by omega)]

/-- C1: Header codec round-trip (core/protocol.py `pack_header` /
`unpack_header`). For every single-byte op code, filename and hash byte
strings whose UTF-8 byte lengths fit the 16-bit length fields, and file
size fitting the unsigned 64-bit field, `pack_header` succeeds, its output
is exactly 16 bytes, and `unpack_header` of that output returns a `Header`
whose `op_code`, `name_len`, `file_size` and `hash_len` equal the packed
inputs (`name_len`/`hash_len` being the UTF-8 byte lengths). -/
theorem C1_header_roundtrip (op : Nat) (name hash : List Nat) (fs : Int)
    (hop : op < 256) (hn : name.length ≤ 65535) (hfs0 : 0 ≤ fs)
    (hfs : fs < 2 ^ 64) (hh : hash.length ≤ 65535) :
    ∃ bs, pack_header op name fs hash = some bs ∧ bs.length = 16 ∧
      unpack_header bs = some ⟨op, name.length, fs.toNat, hash.length⟩ ∧
      (fs.toNat : Int) = fs := by
  refine ⟨_, pack_header_eq op name hash fs hop hn hfs0 hfs hh, ?_, ?_, ?_⟩
  · exact packed_length op name.length fs.toNat hash.length
  · refine unpack_packed op name.length fs.toNat hash.length (by omega) ?_ (by omega)
    omega
  · exact Int.toNat_of_nonneg hfs0

/-- C1 witness: concrete round-trip for op code `F` (70), filename
`"a.txt"` (5 UTF-8 bytes), file size 1024 and a 5-byte hash string. -/
theorem C1_header_roundtrip_witness :
    ∃ bs, pack_header 70 [97, 46, 116, 120, 116] 1024 [104, 97, 115, 104, 49]
        = some bs ∧
      bs.length = 16 ∧
      unpack_header bs = some ⟨70, 5, 1024, 5⟩ ∧
      ((1024 : Int).toNat : Int) = 1024 :=
  C1_header_roundtrip 70 [97, 46, 116, 120, 116] [104, 97, 115, 104, 49] 1024
    (by decide) (by decide) (by decide) (by decide) (by decide)

/-- C2: `unpack_header` fails (raises `ValueError`, modelled by `none`) if
and only if the input length is not exactly 16 bytes; on every 16-byte
input it succeeds and returns a `Header` — no other validation is
performed, so degenerate field values are accepted. -/
theorem C2_unpack_header_ok_iff_len16 (data : List Nat) :
    (∃ hd, unpack_header data = some hd) ↔ data.length = 16 := by
  rw [unpack_header]
  by_cases h : data.length = HEADER_SIZE
  · rw [if_pos h]
    simp only [HEADER_SIZE] at h
    exact ⟨fun _ => h, fun _ => ⟨_, rfl⟩⟩
  · rw [if_neg h]
    simp only [HEADER_SIZE] at h
    exact ⟨fun ⟨_, hc⟩ => absurd hc (by simp), fun hc => absurd hc h⟩

/-- C10: `pack_header` fails with a `struct.error` (modelled by `none`)
whenever the filename byte length or the hash byte length exceeds 65535,
or the file size is negative or at least `2^64` (format fields `H` and `Q`
of `struct.pack("!cHQH3s", ...)` are range-checked). -/
theorem C10_pack_header_out_of_range (op : Nat) (name hash : List Nat)
    (fs : Int)
    (h : name.length > 65535 ∨ hash.length > 65535 ∨ fs < 0 ∨ 2 ^ 64 ≤ fs) :
    pack_header op name fs hash = none := by
  rw [pack_header, if_neg]
  rintro ⟨-, h1, h2, h3, h4⟩
  rcases h with h | h | h | h <;> omega

/-- C10 witness: a filename of 65536 UTF-8 bytes makes `pack_header`
raise rather than return a 16-byte header. -/
theorem C10_pack_header_out_of_range_witness :
    (List.replicate 65536 97).length > 65535 ∧
      pack_header 70 (List.replicate 65536 97) 0 [] = none :=
  ⟨by rw [List.length_replicate]; omega,
    C10_pack_header_out_of_range 70 (List.replicate 65536 97) [] 0
      (Or.inl (by rw [List.length_replicate]; omega))⟩

/-- `ProxyServer.corrupt_data` (services/proxy.py lines 276-290), with the
randomness made explicit: `draw` is the value returned by
`random.random()` (uniform in `[0,1)`), `idx` the value
`random.randint(0, len(data) - 1)` would return when the range is
non-empty, and `bit` the value of `random.randint(0, 7)`. When the draw
fires (`draw < rate`) the byte at `idx` is replaced by itself XOR
`1 <<< bit` (a single bit flip); on an empty buffer
`random.randint(0, -1)` raises `ValueError`, modelled by `none` (the
branch where no valid index exists). When the draw does not fire the data
is returned unchanged. -/
def corrupt_data (rate draw : ℚ) (idx bit : Nat) (data : List Nat) :
    Option (List Nat) :=
  if draw < rate then
    if h : idx < data.length then
      some (data.set idx (Nat.xor (data.get ⟨idx, h⟩) (1 <<< bit)))
    else none
  else some data

/-- C3 counterexample: with `corruption_rate = 1.0` and the random draw
firing, `corrupt_data` applied to the empty chunk raises `ValueError`
(`random.randint(0, -1)` has an empty range) instead of returning a
same-length buffer, so the claim fails on the empty input. -/
theorem C3_corrupt_data_empty_raises : corrupt_data 1 0 0 0 [] = none := by
  rw [corrupt_data, if_pos (by norm_num)]
  simp

/-- C3 amended: `corrupt_data` with `corruption_rate = 0.0` returns every
input — including the empty chunk — bit-identical (since
`random.random() ≥ 0`, the draw never fires); and on every NON-empty
chunk (any rate, any draw, any in-range index and bit choice) it returns
a buffer of identical length to the input that differs from it in at most
one bit of one byte. For the empty chunk with the draw firing it raises
`ValueError` instead (see the counterexample). -/
theorem C3_corrupt_data_amended (rate draw : ℚ) (idx bit : Nat)
    (data : List Nat) :
    (0 ≤ draw → corrupt_data 0 draw idx bit data = some data) ∧
    ∀ (hidx : idx < data.length),
      ∃ out, corrupt_data rate draw idx bit data = some out ∧
        out.length = data.length ∧
        (out = data ∨
          out = data.set idx (Nat.xor (data.get ⟨idx, hidx⟩) (1 <<< bit))) := by
  constructor
  · intro h0
    rw [corrupt_data, if_neg (not_lt.mpr h0)]
  · intro hidx
    rw [corrupt_data]
    by_cases hdr : draw < rate
    · rw [if_pos hdr, dif_pos hidx]
      exact ⟨_, rfl, by simp, Or.inr rfl⟩
    · rw [if_neg hdr]
      exact ⟨data, rfl, rfl, Or.inl rfl⟩

/-- C3 witness: with rate 0 the one-byte chunk `[5]` is returned
unchanged; with rate 1 and the draw firing at index 0, bit 0, the output
has length 1 and is `[5]` or `[4]` (one bit flipped). -/
theorem C3_corrupt_data_amended_witness :
    corrupt_data 0 0 0 0 [5] = some [5] ∧
      ∃ out, corrupt_data 1 0 0 0 [5] = some out ∧ out.length = 1 ∧
        (out = [5] ∨ out = [4]) := by
  refine ⟨(C3_corrupt_data_amended 0 0 0 0 [5]).1 le_rfl, ?_⟩
  obtain ⟨out, h1, h2, h3⟩ := (C3_corrupt_data_amended 1 0 0 0 [5]).2 (by decide)
  refine ⟨out, h1, h2, ?_⟩
  rcases h3 with h | h
  · exact Or.inl h
  · right
    rw [h]
    decide

/-- The `corrupt` flag passed to `forward_tcp` for the client→target
direction (services/proxy.py line 114: `args=(client_socket,
target_socket, True)`). -/
def client_to_target_corrupt : Bool := true

/-- The `corrupt` flag passed to `forward_tcp` for the target→client
direction (services/proxy.py line 117: `args=(target_socket,
client_socket, False)`). -/
def target_to_client_corrupt : Bool := false

/-- Per-chunk processing step of `ProxyServer.forward_tcp`
(services/proxy.py lines 244-249): the chunk read from the source socket
is passed through `corrupt_data` only when the thread's `corrupt` flag is
set and `corruption_rate > 0`; otherwise it is forwarded unmodified. -/
def forward_tcp_chunk (corrupt : Bool) (rate draw : ℚ) (idx bit : Nat)
    (data : List Nat) : Option (List Nat) :=
  if corrupt ∧ 0 < rate then corrupt_data rate draw idx bit data
  else some data

/-- C5 counterexample: in the TCP bridge the target→client forwarding
thread is spawned with `corrupt=False`, so even with
`corruption_rate = 1.0` and a firing draw the chunk `[0]` is forwarded
unchanged, while `corrupt_data` itself would have flipped a bit. The
claim that both directions apply the corruption step is false. -/
theorem C5_target_to_client_never_corrupts :
    forward_tcp_chunk target_to_client_corrupt 1 0 0 0 [0] = some [0] ∧
      corrupt_data 1 0 0 0 [0] = some [1] := by
  constructor
  · rw [forward_tcp_chunk, if_neg (by simp [target_to_client_corrupt])]
  · rw [corrupt_data, if_pos (by norm_num), dif_pos (by decide)]
    decide

/-- C5 amended: in `ProxyServer.handle_client_tcp` only the
client→target forwarding thread applies the per-chunk probabilistic
corruption step (whenever `corruption_rate > 0`); the target→client
thread is spawned with `corrupt=False` and always forwards every chunk
unmodified. -/
theorem C5_forward_tcp_directions (rate draw : ℚ) (idx bit : Nat)
    (data : List Nat) :
    (0 < rate →
      forward_tcp_chunk client_to_target_corrupt rate draw idx bit data
        = corrupt_data rate draw idx bit data) ∧
    forward_tcp_chunk target_to_client_corrupt rate draw idx bit data
      = some data := by
  constructor
  · intro hr
    rw [forward_tcp_chunk,
      if_pos (⟨by simp [client_to_target_corrupt], hr⟩ :
        (client_to_target_corrupt : Prop) ∧ 0 < rate)]
  · rw [forward_tcp_chunk, if_neg (by simp [target_to_client_corrupt])]

/-- C5 witness: concrete instantiation at rate 1, chunk `[7]`:
client→target applies `corrupt_data`, target→client forwards `[7]`
unchanged. -/
theorem C5_forward_tcp_directions_witness :
    forward_tcp_chunk client_to_target_corrupt 1 0 0 0 [7]
        = corrupt_data 1 0 0 0 [7] ∧
      forward_tcp_chunk target_to_client_corrupt 1 0 0 0 [7] = some [7] :=
  ⟨(C5_forward_tcp_directions 1 0 0 0 [7]).1 (by norm_num),
    (C5_forward_tcp_directions 1 0 0 0 [7]).2⟩

/-- `TCPServer._recv_exact` (transport/tcp_server.py lines 141-157), made
deterministic by passing the socket as the sequence of byte strings that
successive `conn.recv` calls return (`stream`); an exhausted stream
behaves like a closed peer (further `recv` returns empty). `acc` is the
`data` accumulator of the loop, `n` the requested byte count. Returns
the function's result together with the unconsumed remainder of the
stream. An empty packet (`if not packet`) makes the whole call return
the empty byte string, signalling EOF. -/
def recv_exact_aux (n : Nat) : List (List Nat) → List Nat →
    List Nat × List (List Nat)
  | [], acc => if acc.length < n then ([], []) else (acc, [])
  | p :: rest, acc =>
    if acc.length < n then
      if p = [] then ([], rest) else recv_exact_aux n rest (acc ++ p)
    else (acc, p :: rest)

/-- `_recv_exact(conn, n)` starting from an empty accumulator. -/
def recv_exact (stream : List (List Nat)) (n : Nat) :
    List Nat × List (List Nat) :=
  recv_exact_aux n stream []

/-- Admissibility of a recv trace: a real `recv(k)` returns at most `k`
bytes, so a trace is admissible for a request of `n` bytes with `accLen`
bytes already collected when each successive packet is no longer than the
number of bytes still missing at that point. -/
def valid_trace (n : Nat) : List (List Nat) → Nat → Bool
  | [], _ => true
  | p :: rest, accLen =>
    if accLen < n then
      decide (p.length ≤ n - accLen) &&
        (p.isEmpty || valid_trace n rest (accLen + p.length))
    else true

theorem recv_exact_aux_all_or_nothing (n : Nat) (s : List (List Nat))
    (acc : List Nat) (hle : acc.length ≤ n)
    (hv : valid_trace n s acc.length = true) :
    (recv_exact_aux n s acc).1 = [] ∨ (recv_exact_aux n s acc).1.length = n := by
  induction s generalizing acc with
  | nil =>
    rw [recv_exact_aux]
    by_cases h : acc.length < n
    · rw [if_pos h]
      exact Or.inl rfl
    · rw [if_neg h]
      exact Or.inr (by show acc.length = n; omega)
  | cons p rest ih =>
    rw [recv_exact_aux]
    by_cases h : acc.length < n
    · rw [if_pos h]
      by_cases hp : p = []
      · rw [if_pos hp]
        exact Or.inl rfl
      · rw [if_neg hp]
        rw [valid_trace, if_pos h, Bool.and_eq_true, Bool.or_eq_true] at hv
        obtain ⟨hv1, hv2⟩ := hv
        have hlen : p.length ≤ n - acc.length := of_decide_eq_true hv1
        have hv3 : valid_trace n rest (acc.length + p.length) = true := by
          rcases hv2 with hv2 | hv2
          · exact absurd (List.isEmpty_iff.mp hv2) hp
          · exact hv2
        have := ih (acc ++ p) (by simp; omega) (by simpa using hv3)
        simpa using this
    · rw [if_neg h]
      exact Or.inr (by show acc.length = n; omega)

/-- C9: `_recv_exact(conn, n)` is all-or-nothing. For every `n` and every
admissible sequence of values returned by the underlying `recv` calls
(each `recv` returns at most the number of bytes still missing), the
result is either of length exactly `n` or the empty byte string (produced
when a `recv` returns empty — peer closed — before `n` bytes were
collected); a non-empty result shorter than `n` is impossible. -/
theorem C9_recv_exact_all_or_nothing (stream : List (List Nat)) (n : Nat)
    (hv : valid_trace n stream 0 = true) :
    (recv_exact stream n).1 = [] ∨ (recv_exact stream n).1.length = n :=
  recv_exact_aux_all_or_nothing n stream [] (by simp) hv

/-- C9 witness: requesting 4 bytes from the trace `[[1,2],[3,4]]`
(admissible: each packet is within the missing amount) yields a result
that is empty or of length exactly 4. -/
theorem C9_recv_exact_all_or_nothing_witness :
    valid_trace 4 [[1, 2], [3, 4]] 0 = true ∧
      ((recv_exact [[1, 2], [3, 4]] 4).1 = [] ∨
        (recv_exact [[1, 2], [3, 4]] 4).1.length = 4) :=
  ⟨by decide, C9_recv_exact_all_or_nothing [[1, 2], [3, 4]] 4 (by decide)⟩

theorem recv_exact_aux_rest_length_le (n : Nat) (s : List (List Nat))
    (acc : List Nat) : (recv_exact_aux n s acc).2.length ≤ s.length := by
  induction s generalizing acc with
  | nil =>
    rw [recv_exact_aux]
    by_cases h : acc.length < n
    · rw [if_pos h]
    · rw [if_neg h]
  | cons p rest ih =>
    rw [recv_exact_aux]
    by_cases h : acc.length < n
    · rw [if_pos h]
      by_cases hp : p = []
      · rw [if_pos hp]
        simp
      · rw [if_neg hp]
        exact le_trans (ih (acc ++ p)) (by simp)
    · rw [if_neg h]

theorem recv_exact_consumes (s : List (List Nat)) (n : Nat) (hn : 0 < n)
    (h : (recv_exact s n).1 ≠ []) : (recv_exact s n).2.length < s.length := by
  rw [recv_exact] at *
  cases s with
  | nil =>
    rw [recv_exact_aux, if_pos (by simpa using hn)] at h
    exact absurd rfl h
  | cons p rest =>
    rw [recv_exact_aux, if_pos (by simpa using hn)] at h ⊢
    by_cases hp : p = []
    · rw [if_pos hp] at h
      exact absurd rfl h
    · rw [if_neg hp]
      exact lt_of_le_of_lt (recv_exact_aux_rest_length_le n rest ([] ++ p))
        (by simp)

/-- `CHUNK_SIZE = 4096` (config.py). -/
def CHUNK_SIZE : Nat := 4096

/-- File-system side effects performed by the receivers, recorded in
program order: `save_path.parent.mkdir(parents=True, exist_ok=True)`,
`open(path, "wb")` (create/truncate), per-chunk `f.write` on a file open
for appending, and the write of the `<path>.sha256` sidecar containing
the sender-supplied hash. -/
inductive FSEffect where
  | mkdirParents (path : List Nat)
  | truncateFile (path : List Nat)
  | appendFile (path : List Nat) (data : List Nat)
  | writeSidecar (path : List Nat) (hash : List Nat)
deriving DecidableEq, Repr

/-- `Path(save_dir) / filename`. -/
def path_join (dir name : List Nat) : List Nat := dir ++ [47] ++ name

/-- The UTF-8 bytes of the literal `".sha256"` appended by
`Path(f"{save_path}.sha256")`. -/
def SHA256_SUFFIX : List Nat := [46, 115, 104, 97, 50, 53, 54]

/-- Continuation byte of a UTF-8 sequence (`0x80..0xBF`). -/
def utf8_cont (b : Nat) : Bool := 128 ≤ b && b ≤ 191

/-- Validity of a byte string under Python's `bytes.decode("utf-8")`
(strict errors): ASCII bytes stand alone; 2-4 byte sequences must start
with a valid leading byte and be followed by in-range continuation bytes
(excluding overlong forms, surrogates `U+D800..U+DFFF` and code points
above `U+10FFFF`). `decode` raises `UnicodeDecodeError` exactly when this
returns `false`; the decoded text is only ever re-encoded by the code, so
strings are carried as their UTF-8 bytes. -/
def utf8_valid : List Nat → Bool
  | [] => true
  | b :: rest =>
    if b ≤ 127 then utf8_valid rest
    else if 194 ≤ b && b ≤ 223 then
      match rest with
      | c1 :: r => utf8_cont c1 && utf8_valid r
      | [] => false
    else if b = 224 then
      match rest with
      | c1 :: c2 :: r => (160 ≤ c1 && c1 ≤ 191) && utf8_cont c2 && utf8_valid r
      | _ => false
    else if (225 ≤ b && b ≤ 236) || b = 238 || b = 239 then
      match rest with
      | c1 :: c2 :: r => utf8_cont c1 && utf8_cont c2 && utf8_valid r
      | _ => false
    else if b = 237 then
      match rest with
      | c1 :: c2 :: r => (128 ≤ c1 && c1 ≤ 159) && utf8_cont c2 && utf8_valid r
      | _ => false
    else if b = 240 then
      match rest with
      | c1 :: c2 :: c3 :: r =>
        (144 ≤ c1 && c1 ≤ 191) && utf8_cont c2 && utf8_cont c3 && utf8_valid r
      | _ => false
    else if 241 ≤ b && b ≤ 243 then
      match rest with
      | c1 :: c2 :: c3 :: r =>
        utf8_cont c1 && utf8_cont c2 && utf8_cont c3 && utf8_valid r
      | _ => false
    else if b = 244 then
      match rest with
      | c1 :: c2 :: c3 :: r =>
        (128 ≤ c1 && c1 ≤ 143) && utf8_cont c2 && utf8_cont c3 && utf8_valid r
      | _ => false
    else false

/-- Content-receiving loop of `TCPServer.handle_client`
(transport/tcp_server.py lines 93-103): while fewer than `file_size`
bytes have been received, request `min(CHUNK_SIZE, file_size - received)`
bytes with `_recv_exact`; an empty result (peer closed) breaks the loop,
otherwise the chunk is written to the file open at `path` and counted.
Returns the final `received_bytes`, the append effects in order, and the
unconsumed stream. -/
def content_loop (path : List Nat) (file_size : Nat)
    (stream : List (List Nat)) (received : Nat) :
    Nat × List FSEffect × List (List Nat) :=
  if hrec : received < file_size then
    let r := recv_exact stream (min CHUNK_SIZE (file_size - received))
    if h : r.1 = [] then (received, [], r.2)
    else
      let next := content_loop path file_size r.2 (received + r.1.length)
      (next.1, FSEffect.appendFile path r.1 :: next.2.1, next.2.2)
  else (received, [], stream)
termination_by stream.length
decreasing_by
  exact recv_exact_consumes stream (min CHUNK_SIZE (file_size - received))
    (by simp [CHUNK_SIZE]; omega) h

/-- Result of one iteration of the `while True` connection loop of
`TCPServer.handle_client` (transport/tcp_server.py lines 62-136), i.e.
the reception of a single file: `eof` when the header read returns empty
(peer closed between files, clean exit), `exn` when an exception escapes
(malformed header or undecodable filename/hash — the connection is
abandoned by the `except` clause and nothing further is written), and
`ok` carrying the file-system effects in program order, the final
`received_bytes`, the declared `file_size` and the unconsumed stream. -/
inductive FileRecvResult where
  | eof (rest : List (List Nat))
  | exn
  | ok (effects : List FSEffect) (received file_size : Nat)
      (rest : List (List Nat))
deriving DecidableEq, Repr

/-- One file-reception iteration of `TCPServer.handle_client`: read
exactly 16 header bytes (empty ⇒ clean EOF), unpack the header, read and
decode `name_len` filename bytes and `hash_len` hash bytes, create parent
directories and truncate the destination file, run the content loop, and
finally — unconditionally after the loop — write the `.sha256` sidecar
with the received hash. -/
def handle_one_file (save_dir : List Nat) (stream : List (List Nat)) :
    FileRecvResult :=
  let hdr := recv_exact stream HEADER_SIZE
  if hdr.1 = [] then .eof hdr.2
  else
    match unpack_header hdr.1 with
    | none => .exn
    | some hd =>
      let nm := recv_exact hdr.2 hd.name_len
      if utf8_valid nm.1 then
        let hs := recv_exact nm.2 hd.hash_len
        if utf8_valid hs.1 then
          let path := path_join save_dir nm.1
          let c := content_loop path hd.file_size hs.2 0
          .ok ([FSEffect.mkdirParents path, FSEffect.truncateFile path] ++
                c.2.1 ++ [FSEffect.writeSidecar (path ++ SHA256_SUFFIX) hs.1])
            c.1 hd.file_size c.2.2
        else .exn
      else .exn

/-- Sender address key of the UDP session map: the `(ip, port)` tuple. -/
abbrev Addr := String × Nat

/-- The `state` string of `UDPSession` (transport/udp_server.py): the
values actually assigned are `"WAITING_METADATA"` and
`"RECEIVING_CONTENT"`. -/
inductive SessionState where
  | waitingMetadata
  | receivingContent
deriving DecidableEq, Repr

/-- `UDPSession` dataclass (transport/udp_server.py lines 13-28), with
`filename`, `file_hash` and `file_path` carried as UTF-8 byte lists. -/
structure UDPSession where
  state : SessionState
  header : Option Header := none
  filename : Option (List Nat) := none
  file_hash : Option (List Nat) := none
  received_bytes : Nat := 0
  file_path : Option (List Nat) := none
deriving DecidableEq, Repr

/-- The mutable state of a `UDPServer` instance relevant to
`process_datagram`: `self.save_dir` and the `self.sessions` dict keyed by
sender address (modelled as a function to `Option`, `none` meaning the
key is absent). -/
structure UDPServerState where
  save_dir : List Nat
  sessions : Addr → Option UDPSession

/-- Assignment `self.sessions[addr] = v` (for `v = some s`) or deletion
`del self.sessions[addr]` (for `v = none`) on the session dict; all other
keys keep their values. -/
def set_session (st : UDPServerState) (addr : Addr) (v : Option UDPSession) :
    UDPServerState :=
  { st with sessions := fun b => if b = addr then v else st.sessions b }

/-- `UDPServer.process_datagram` (transport/udp_server.py lines 86-176).
Returns the updated server state and the file-system effects performed,
in program order. Branches, mirroring the source: no session + 16-byte
datagram => unpack the header and create a `WAITING_METADATA` session
(the `except ValueError` arm, which would drop the datagram without
creating a session, is the `none` case of `unpack_header`); no session +
any other length => drop silently; `WAITING_METADATA` => on exact
`name_len + hash_len` length, split and decode the metadata,
create/truncate the destination file and move to `RECEIVING_CONTENT` (an
undecodable byte string raises `UnicodeDecodeError`, caught by the
generic `except`, which deletes the session), on any other length delete
the session; `RECEIVING_CONTENT` => append the datagram to the file, and
once the running total reaches `header.file_size` write the `.sha256`
sidecar (only when the stored hash string is truthy, i.e. non-empty) and
delete the session. -/
def process_datagram (st : UDPServerState) (data : List Nat) (addr : Addr) :
    UDPServerState × List FSEffect :=
  match st.sessions addr with
  | none =>
    if data.length = HEADER_SIZE then
      match unpack_header data with
      | some header =>
        (set_session st addr
          (some { state := .waitingMetadata, header := some header }), [])
      | none => (st, [])
    else (st, [])
  | some session =>
    match session.state with
    | .waitingMetadata =>
      match session.header with
      | none => (set_session st addr none, [])
      | some header =>
        if data.length = header.name_len + header.hash_len then
          let name_bytes := data.take header.name_len
          let hash_bytes := data.drop header.name_len
          if utf8_valid name_bytes && utf8_valid hash_bytes then
            let save_path := path_join st.save_dir name_bytes
            (set_session st addr
              (some { session with
                state := .receivingContent
                filename := some name_bytes
                file_hash := some hash_bytes
                file_path := some save_path }),
              [FSEffect.mkdirParents save_path,
                FSEffect.truncateFile save_path])
          else (set_session st addr none, [])
        else (set_session st addr none, [])
    | .receivingContent =>
      match session.file_path with
      | none => (set_session st addr none, [])
      | some fp =>
        let rb := session.received_bytes + data.length
        match session.header with
        | some header =>
          if header.file_size ≤ rb then
            match session.file_hash with
            | some fh =>
              if fh ≠ [] then
                (set_session st addr none,
                  [FSEffect.appendFile fp data,
                    FSEffect.writeSidecar (fp ++ SHA256_SUFFIX) fh])
              else (set_session st addr none, [FSEffect.appendFile fp data])
            | none => (set_session st addr none, [FSEffect.appendFile fp data])
          else
            (set_session st addr (some { session with received_bytes := rb }),
              [FSEffect.appendFile fp data])
        | none =>
          (set_session st addr (some { session with received_bytes := rb }),
            [FSEffect.appendFile fp data])

theorem unpack_header_of_len16 (data : List Nat) (h : data.length = 16) :
    unpack_header data
      = some
          { op_code := data.headI
            name_len := beToNat ((data.drop 1).take 2)
            file_size := beToNat ((data.drop 3).take 8)
            hash_len := beToNat ((data.drop 11).take 2) } := by
  rw [unpack_header, if_pos (by simpa [HEADER_SIZE] using h)]

/-- C6: for a datagram from an address with no existing session:
if it is exactly 16 bytes, `process_datagram` unpacks it as a header —
which on a 16-byte input always succeeds, so the unpack-failure arm that
would drop the datagram is unreachable — and creates a session for that
address in state `WAITING_METADATA` holding the unpacked header (and
performs no file-system effect); for any other length the datagram is
dropped silently and the server state, in particular the session map, is
returned unchanged. -/
theorem C6_udp_no_session_dispatch (st : UDPServerState) (data : List Nat)
    (addr : Addr) (hnone : st.sessions addr = none) :
    (data.length = 16 →
      ∃ hd, unpack_header data = some hd ∧
        process_datagram st data addr
          = (set_session st addr
              (some { state := .waitingMetadata, header := some hd }), [])) ∧
    (data.length ≠ 16 → process_datagram st data addr = (st, [])) := by
  constructor
  · intro h16
    refine ⟨_, unpack_header_of_len16 data h16, ?_⟩
    simp only [process_datagram, hnone, HEADER_SIZE, h16, if_true,
      unpack_header_of_len16 data h16]
  · intro h16
    simp only [process_datagram, hnone, HEADER_SIZE]
    rw [if_neg h16]

/-- C6 witness: with an empty session map, a concrete 16-byte datagram
(op `F`, name_len 1, file_size 10, hash_len 1) creates the
`WAITING_METADATA` session for `("peer", 5000)`, and the 3-byte datagram
`[1,2,3]` leaves the state unchanged. -/
theorem C6_udp_no_session_dispatch_witness :
    (∃ hd, unpack_header [70, 0, 1, 0, 0, 0, 0, 0, 0, 0, 10, 0, 1, 0, 0, 0]
        = some hd ∧
      process_datagram ⟨[100], fun _ => none⟩
          [70, 0, 1, 0, 0, 0, 0, 0, 0, 0, 10, 0, 1, 0, 0, 0] ("peer", 5000)
        = (set_session ⟨[100], fun _ => none⟩ ("peer", 5000)
            (some { state := .waitingMetadata, header := some hd }), [])) ∧
    process_datagram ⟨[100], fun _ => none⟩ [1, 2, 3] ("peer", 5000)
      = (⟨[100], fun _ => none⟩, []) :=
  ⟨(C6_udp_no_session_dispatch ⟨[100], fun _ => none⟩
      [70, 0, 1, 0, 0, 0, 0, 0, 0, 0, 10, 0, 1, 0, 0, 0] ("peer", 5000) rfl).1
      rfl,
    (C6_udp_no_session_dispatch ⟨[100], fun _ => none⟩ [1, 2, 3]
      ("peer", 5000) rfl).2 (by decide)⟩

/-- C7: session isolation (frame property). Processing a datagram from
address `addr` never creates, modifies or removes the session of any
other address `b ≠ addr`: every mutation of the session dict in
`process_datagram` — including the deletions performed when an exception
(malformed metadata, undecodable UTF-8) is caught — targets the key
`addr` only. -/
theorem C7_session_isolation (st : UDPServerState) (data : List Nat)
    (addr b : Addr) (hne : b ≠ addr) :
    (process_datagram st data addr).1.sessions b = st.sessions b := by
  cases hs : st.sessions addr with
  | none =>
    simp only [process_datagram, hs]
    repeat' split
    all_goals simp [set_session, hne]
  | some session =>
    simp only [process_datagram, hs]
    repeat' split
    all_goals simp [set_session, hne]

/-- C7 witness: concrete instantiation — a content datagram from
`("a", 1)` completes that session while the session of `("b", 2)` is
untouched. -/
theorem C7_session_isolation_witness :
    (process_datagram
        ⟨[100], fun a =>
          if a = ("a", 1) then
            some { state := .receivingContent, header := some ⟨70, 1, 2, 1⟩,
                   filename := some [97], file_hash := some [98],
                   received_bytes := 0, file_path := some [100, 47, 97] }
          else if a = ("b", 2) then
            some { state := .waitingMetadata, header := some ⟨70, 1, 5, 1⟩ }
          else none⟩
        [1, 2] ("a", 1)).1.sessions ("b", 2)
      = some { state := .waitingMetadata, header := some ⟨70, 1, 5, 1⟩ } :=
  C7_session_isolation _ [1, 2] ("a", 1) ("b", 2) (by decide)

theorem udp_sidecar_needs_completion (st : UDPServerState) (data : List Nat)
    (addr : Addr) (p hsh : List Nat)
    (hmem : FSEffect.writeSidecar p hsh ∈ (process_datagram st data addr).2) :
    ∃ s hd, st.sessions addr = some s ∧ s.state = .receivingContent ∧
      s.header = some hd ∧
      hd.file_size ≤ s.received_bytes + data.length := by
  cases hs : st.sessions addr with
  | none =>
    rw [process_datagram] at hmem
    simp only [hs] at hmem
    split at hmem
    · split at hmem <;> simp at hmem
    · simp at hmem
  | some session =>
    rw [process_datagram] at hmem
    simp only [hs] at hmem
    cases hst : session.state with
    | waitingMetadata =>
      simp only [hst] at hmem
      repeat' split at hmem
      all_goals simp at hmem
    | receivingContent =>
      simp only [hst] at hmem
      cases hfp : session.file_path with
      | none =>
        simp only [hfp] at hmem
        simp at hmem
      | some fp =>
        simp only [hfp] at hmem
        cases hhd : session.header with
        | none =>
          simp only [hhd] at hmem
          simp at hmem
        | some header =>
          simp only [hhd] at hmem
          by_cases hsize :
              header.file_size ≤ session.received_bytes + data.length
          · exact ⟨session, header, rfl, hst, hhd, hsize⟩
          · rw [if_neg hsize] at hmem
            simp at hmem

theorem tcp_sidecar_always_written (save_dir : List Nat)
    (stream : List (List Nat)) (effs : List FSEffect) (received fsize : Nat)
    (rest : List (List Nat))
    (h : handle_one_file save_dir stream = .ok effs received fsize rest) :
    ∃ p hsh, FSEffect.writeSidecar p hsh ∈ effs := by
  rw [handle_one_file] at h
  split at h
  · exact absurd h (by simp)
  · split at h
    · exact absurd h (by simp)
    · dsimp only at h
      split at h
      · split at h
        · rw [FileRecvResult.ok.injEq] at h
          obtain ⟨heffs, -, -, -⟩ := h
          subst heffs
          exact ⟨_, _, List.mem_append.mpr
            (Or.inr (List.mem_singleton.mpr rfl))⟩
        · exact absurd h (by simp)
      · exact absurd h (by simp)

/-- C4 counterexample (TCP receiver): with `save_dir = "d"`, a connection
whose recv trace delivers a valid header declaring a 10-byte file
(name_len 1, hash_len 1), the 1-byte filename `"a"` and the 1-byte hash
`"b"`, and then closes (no content ever arrives), `handle_client`'s
per-file iteration ends with `received_bytes = 0 < 10 = file_size` and
STILL writes the `d/a.sha256` sidecar — the sidecar write after the
content loop is unconditional, so the claim that no sidecar is written
when the transfer ends early is false for the TCP server. -/
theorem C4_tcp_sidecar_on_truncated_transfer :
    handle_one_file [100]
        [[70, 0, 1, 0, 0, 0, 0, 0, 0, 0, 10, 0, 1, 0, 0, 0], [97], [98]]
      = .ok [FSEffect.mkdirParents [100, 47, 97],
          FSEffect.truncateFile [100, 47, 97],
          FSEffect.writeSidecar [100, 47, 97, 46, 115, 104, 97, 50, 53, 54]
            [98]] 0 10 [] ∧
      FSEffect.writeSidecar [100, 47, 97, 46, 115, 104, 97, 50, 53, 54] [98]
        ∈ [FSEffect.mkdirParents [100, 47, 97],
            FSEffect.truncateFile [100, 47, 97],
            FSEffect.writeSidecar [100, 47, 97, 46, 115, 104, 97, 50, 53, 54]
              [98]] ∧
      (0 : Nat) < 10 := by
  refine ⟨?_, by simp, by norm_num⟩
  have hcl : content_loop [100, 47, 97] 10 [] 0 = (0, [], []) := by
    rw [content_loop]
    decide
  have h0 : handle_one_file [100]
      [[70, 0, 1, 0, 0, 0, 0, 0, 0, 0, 10, 0, 1, 0, 0, 0], [97], [98]]
      = .ok ([FSEffect.mkdirParents [100, 47, 97],
            FSEffect.truncateFile [100, 47, 97]] ++
          (content_loop [100, 47, 97] 10 [] 0).2.1 ++
          [FSEffect.writeSidecar
            [100, 47, 97, 46, 115, 104, 97, 50, 53, 54] [98]])
        (content_loop [100, 47, 97] 10 [] 0).1 10
        (content_loop [100, 47, 97] 10 [] 0).2.2 := rfl
  rw [h0, hcl]
  rfl

/-- C4 amended: on the UDP receiver the `.sha256` sidecar can only be
written by a datagram that, appended to an existing `RECEIVING_CONTENT`
session, brings `received_bytes` up to at least the declared
`file_size` — a transfer whose datagrams stop early never produces a
sidecar. On the TCP receiver, however, the sidecar write after the
content loop is unconditional: every per-file iteration that completes
without an exception (header read succeeded, filename and hash decoded)
writes the sidecar, even when the peer closed the connection before the
declared byte count was reached (see the counterexample). -/
theorem C4_sidecar_conditions :
    (∀ (st : UDPServerState) (data : List Nat) (addr : Addr)
        (p hsh : List Nat),
      FSEffect.writeSidecar p hsh ∈ (process_datagram st data addr).2 →
        ∃ s hd, st.sessions addr = some s ∧ s.state = .receivingContent ∧
          s.header = some hd ∧
          hd.file_size ≤ s.received_bytes + data.length) ∧
    (∀ (save_dir : List Nat) (stream : List (List Nat))
        (effs : List FSEffect) (received fsize : Nat)
        (rest : List (List Nat)),
      handle_one_file save_dir stream = .ok effs received fsize rest →
        ∃ p hsh, FSEffect.writeSidecar p hsh ∈ effs) :=
  ⟨udp_sidecar_needs_completion, tcp_sidecar_always_written⟩

/-- C4 witness: (UDP) a 2-byte content datagram completing a session with
`file_size = 2` satisfies the completion bound extracted from the sidecar
effect; (TCP) the truncated-transfer run of the counterexample input
indeed contains a sidecar write among its effects. -/
theorem C4_sidecar_conditions_witness :
    (∃ s hd,
      (⟨[100], fun a => if a = ("a", 1) then
          some { state := .receivingContent, header := some ⟨70, 1, 2, 1⟩,
                 filename := some [97], file_hash := some [98],
                 received_bytes := 0, file_path := some [100, 47, 97] }
        else none⟩ : UDPServerState).sessions ("a", 1) = some s ∧
      s.state = .receivingContent ∧ s.header = some hd ∧
      hd.file_size ≤ s.received_bytes + [1, 2].length) ∧
    ∃ p hsh, FSEffect.writeSidecar p hsh
      ∈ [FSEffect.mkdirParents [100, 47, 97],
          FSEffect.truncateFile [100, 47, 97],
          FSEffect.writeSidecar [100, 47, 97, 46, 115, 104, 97, 50, 53, 54]
            [98]] := by
  constructor
  · refine C4_sidecar_conditions.1 _ [1, 2] ("a", 1)
      [100, 47, 97, 46, 115, 104, 97, 50, 53, 54] [98] ?_
    rw [process_datagram]
    decide
  · refine C4_sidecar_conditions.2 [100]
      [[70, 0, 1, 0, 0, 0, 0, 0, 0, 0, 10, 0, 1, 0, 0, 0], [97], [98]]
      _ 0 10 [] ?_
    have hcl : content_loop [100, 47, 97] 10 [] 0 = (0, [], []) := by
      rw [content_loop]
      decide
    have h0 : handle_one_file [100]
        [[70, 0, 1, 0, 0, 0, 0, 0, 0, 0, 10, 0, 1, 0, 0, 0], [97], [98]]
        = .ok ([FSEffect.mkdirParents [100, 47, 97],
              FSEffect.truncateFile [100, 47, 97]] ++
            (content_loop [100, 47, 97] 10 [] 0).2.1 ++
            [FSEffect.writeSidecar
              [100, 47, 97, 46, 115, 104, 97, 50, 53, 54] [98]])
          (content_loop [100, 47, 97] 10 [] 0).1 10
          (content_loop [100, 47, 97] 10 [] 0).2.2 := rfl
    rw [h0, hcl]
    simp

/-- Outcome of the file pre-check that opens `send_files` in both
clients: either the `FileNotFoundError("No valid files to send")` raise
(the `NoValidFiles` error), or the continuation that opens the socket
and sends the surviving files. The raise occurs before the
`with socket.socket(...)` block, so in the error case no socket is
opened and no bytes are sent. -/
inductive SendFilesStart where
  | noValidFilesError
  | connectAndSend (valid_files : List (List Nat))
deriving DecidableEq, Repr

/-- `TCPClient.send_files` entry (transport/tcp_client.py lines 47-49):
`valid_files = [f for f in files if f.exists()]` followed by
`if not valid_files: raise FileNotFoundError(...)`. The file-system
existence test `f.exists()` is the parameter `file_on_disk`; files are
their path byte strings. -/
def tcp_send_files_start (file_on_disk : List Nat → Bool)
    (files : List (List Nat)) : SendFilesStart :=
  let valid_files := files.filter file_on_disk
  if valid_files = [] then .noValidFilesError
  else .connectAndSend valid_files

/-- `UDPClient.send_files` entry (transport/udp_client.py lines 48-50):
identical pre-check before the UDP socket is created. -/
def udp_send_files_start (file_on_disk : List Nat → Bool)
    (files : List (List Nat)) : SendFilesStart :=
  let valid_files := files.filter file_on_disk
  if valid_files = [] then .noValidFilesError
  else .connectAndSend valid_files

/-- C8: for every file list all of whose members fail the existence
check — including the empty list — both `TCPClient.send_files` and
`UDPClient.send_files` take the `NoValidFiles` raise
(`FileNotFoundError`), which precedes the socket `with`-block, so no
socket is opened and no bytes are sent. -/
theorem C8_no_valid_files_raises (file_on_disk : List Nat → Bool)
    (files : List (List Nat))
    (h : ∀ f ∈ files, file_on_disk f = false) :
    tcp_send_files_start file_on_disk files = .noValidFilesError ∧
      udp_send_files_start file_on_disk files = .noValidFilesError := by
  have hfil : files.filter file_on_disk = [] := by
    rw [List.filter_eq_nil_iff]
    intro a ha
    simp [h a ha]
  constructor
  · rw [tcp_send_files_start]
    simp [hfil]
  · rw [udp_send_files_start]
    simp [hfil]

/-- C8 witness: with a file system containing nothing, the two-element
list of paths `"x"` and `"y"` makes both clients raise `NoValidFiles`. -/
theorem C8_no_valid_files_raises_witness :
    tcp_send_files_start (fun _ => false) [[120], [121]]
        = .noValidFilesError ∧
      udp_send_files_start (fun _ => false) [[120], [121]]
        = .noValidFilesError :=
  C8_no_valid_files_raises (fun _ => false) [[120], [121]]
    (fun _ _ => rfl)

end TpiRedes
